import Mathlib

/-!
Verification of the "Drop the Spot" repository.

The repository is a map application: a React single-page client
(src/frontend/src/App.js and the variant in src/unnamed/part_000) in
front of a REST backend over a document store.  The backend source
(server.py, referenced by the testing log in src/unnamed/part_001) is
not part of the sources at hand, so the server-side operations
(friend-request acceptance, rating aggregation, spot visibility
filtering) are modelled from the specification; every client-side
definition is a direct shallow embedding of the code in App.js /
part_000.
-/

namespace DropTheSpot

/-! ## Client-side data model (App.js) -/

/-- The map filter selected in the client.  In App.js `mapFilter` is a
string that is only ever set to one of the three literals `global`,
`own`, `friends` (initial state line 41, the three filter buttons, and
`handleLogout`), so it is embedded as an enumeration. -/
inductive MapFilter where
  | global
  | own
  | friends
deriving DecidableEq, Repr

/-- An HTTP request the client can issue, identified by endpoint and
payload.  Only the endpoints the claims are about are distinguished. -/
inductive Req where
  | getSpots (filterType : MapFilter)
  | postSpot
  | postRate (spotId : Nat) (rating : Nat)
  | getSearch (q : String)
  | getMe
deriving DecidableEq, Repr

/-- The client state relevant to authentication and filtering, from the
`useState` hooks of App.js: `localToken` is the `token` entry of
localStorage, `token` and `user` the React states of the same names,
`authHeader` the shared axios default `Authorization` header,
`fetchInFlight` records that a `fetchUserProfile` call triggered by the
token effect has not resolved yet. -/
structure ClientState where
  localToken : Option String
  token : Option String
  user : Option Nat
  authHeader : Option String
  mapFilter : MapFilter
  showAuthModal : Bool
  showAddForm : Bool
  selectedSpot : Option Nat
  fetchInFlight : Bool
deriving DecidableEq, Repr

/-- Client state on mount: `token` is read from localStorage; if it is
present the token effect (App.js lines 60-65) sets the axios header to
`Bearer` plus the token and starts `fetchUserProfile`. -/
def initState (t0 : Option String) : ClientState where
  localToken := t0
  token := t0
  user := none
  authHeader := t0.map (fun t => "Bearer " ++ t)
  mapFilter := MapFilter.global
  showAuthModal := false
  showAddForm := false
  selectedSpot := none
  fetchInFlight := t0.isSome

/-! ## Client handlers (App.js) -/

/-- Success branch of `handleLogin` (App.js lines 215-239): stores the
access token in localStorage, sets the `token` and `user` states, sets
the axios default Authorization header to `Bearer` plus the token and
closes the auth modal.  The token change re-fires the token effect, so
a `fetchUserProfile` call is started. -/
def handleLoginSuccess (s : ClientState) (t : String) (uid : Nat) : ClientState :=
  { s with
    localToken := some t
    token := some t
    user := some uid
    authHeader := some ("Bearer " ++ t)
    showAuthModal := false
    fetchInFlight := true }

/-- Success branch of `handleRegister` (App.js lines 241-262); identical
effect on the auth state as a successful login. -/
def handleRegisterSuccess (s : ClientState) (t : String) (uid : Nat) : ClientState :=
  { s with
    localToken := some t
    token := some t
    user := some uid
    authHeader := some ("Bearer " ++ t)
    showAuthModal := false
    fetchInFlight := true }

/-- `handleLogout` (App.js lines 264-271): removes the token from
localStorage, clears the `token` and `user` states, deletes the axios
default Authorization header and resets the map filter to `global`. -/
def handleLogout (s : ClientState) : ClientState :=
  { s with
    localToken := none
    token := none
    user := none
    authHeader := none
    mapFilter := MapFilter.global }

/-- Resolution of the `fetchUserProfile` request (App.js lines 107-118):
on success the response data becomes the `user` state; on any error the
token is removed from localStorage, `token` and `user` are set to null
and the axios default Authorization header is deleted.  The map filter
is not touched on either branch. -/
def fetchUserProfileResult (s : ClientState) (r : Except Unit Nat) : ClientState :=
  match r with
  | Except.ok uid => { s with user := some uid }
  | Except.error _ =>
      { s with
        localToken := none
        token := none
        user := none
        authHeader := none }

/-- Resolution of the `loadSpots` request (App.js lines 164-173), as the
new value of the `spots` state: on success the response data replaces
the previous spots; on error `setSpots([])` discards them. -/
def loadSpotsResult (r : Except Unit (List Nat)) (_prevSpots : List Nat) : List Nat :=
  match r with
  | Except.ok d => d
  | Except.error _ => []

/-- Observable effect of one `searchUsers` call: the HTTP request it
issues, if any, and the new value of the `searchResults` state
(`none` meaning the state is left unchanged). -/
structure SearchEffect where
  request : Option Req
  newResults : Option (List Nat)
deriving DecidableEq, Repr

/-- `searchUsers` (App.js lines 384-395): a query that is empty or
shorter than 2 characters clears the results and issues no request;
otherwise `GET /users/search?q=` plus the query is issued and on
success the response becomes the results (on error only a log is
written, the results state is untouched). -/
def searchUsers (query : String) (resp : Except Unit (List Nat)) : SearchEffect :=
  if query.length < 2 then
    { request := none, newResults := some [] }
  else
    { request := some (Req.getSearch query)
      newResults :=
        match resp with
        | Except.ok d => some d
        | Except.error _ => none }

/-- `handleAddSpotClick` (App.js lines 273-300): with no user logged in
it opens the auth modal and returns; with a user it opens the add-spot
form and clears the selected spot.  Neither branch issues an HTTP
request. -/
def handleAddSpotClick (s : ClientState) : ClientState × List Req :=
  match s.user with
  | none => ({ s with showAuthModal := true }, [])
  | some _ => ({ s with showAddForm := true, selectedSpot := none }, [])

/-- `handleRateSpot` (App.js lines 352-367): with no user logged in it
opens the auth modal and returns without any request; with a user it
posts the chosen rating to `/spots/{id}/rate`. -/
def handleRateSpot (s : ClientState) (spotId rating : Nat) : ClientState × List Req :=
  match s.user with
  | none => ({ s with showAuthModal := true }, [])
  | some _ => (s, [Req.postRate spotId rating])

/-- The star values rendered by the rating widget of App.js (line 699):
the literal array `[1, 2, 3, 4, 5]`, each star's `onClick` passing its
value to `handleRateSpot` unchanged. -/
def appStarValues : List Nat := [1, 2, 3, 4, 5]

/-- The star values rendered by the `StarRating` component of
src/unnamed/part_000 (lines 201-225): five buttons indexed 0..4, the
button at `index` carrying `starValue = index + 1`. -/
def starRatingValues : List Nat := (List.range 5).map (fun i => i + 1)

/-- The footer view label of App.js (line 793), a ternary on the
current map filter. -/
def footerLabel (f : MapFilter) : String :=
  if f = MapFilter.global then "All public spots"
  else if f = MapFilter.own then "Your spots"
  else "Your + friends" ++ (Char.ofNat 39).toString ++ " spots"

/-! ## Client event system

The user-interface events that can change the auth/filter state,
wired to the handlers above.  The filter and logout buttons are only
rendered while a user is logged in (App.js lines 439-460 and 464-482),
so their events act only in that case; a `fetchUserProfile` result can
only arrive while such a call is in flight. -/

inductive Event where
  | loginSuccess (t : String) (uid : Nat)
  | registerSuccess (t : String) (uid : Nat)
  | filterClick (f : MapFilter)
  | logoutClick
  | profileFetchResult (r : Except Unit Nat)
  | addSpotClick
  | rateSpotClick (spotId rating : Nat)
deriving Repr

/-- One client transition. -/
def clientStep (s : ClientState) (e : Event) : ClientState :=
  match e with
  | Event.loginSuccess t uid => handleLoginSuccess s t uid
  | Event.registerSuccess t uid => handleRegisterSuccess s t uid
  | Event.filterClick f => if s.user.isSome then { s with mapFilter := f } else s
  | Event.logoutClick => if s.user.isSome then handleLogout s else s
  | Event.profileFetchResult r =>
      if s.fetchInFlight then { fetchUserProfileResult s r with fetchInFlight := false } else s
  | Event.addSpotClick => (handleAddSpotClick s).1
  | Event.rateSpotClick sid v => (handleRateSpot s sid v).1

/-- Run a sequence of client events from a state. -/
def runEvents (s : ClientState) (es : List Event) : ClientState :=
  es.foldl clientStep s

/-- Whether an event is a failed `fetchUserProfile` resolution. -/
def isProfileFetchFail (e : Event) : Bool :=
  match e with
  | Event.profileFetchResult (Except.error _) => true
  | _ => false

/-! ## Backend model

The backend (server.py) is not among the sources at hand; the
definitions below are modelled from the specification. -/

/-- Status of a friend request: rejected/withdrawn requests are deleted,
not retained, so only `pending` and `accepted` exist. -/
inductive ReqStatus where
  | pending
  | accepted
deriving DecidableEq, Repr

/-- Modelled from the spec: the FriendRequest record of the missing
backend (server.py), §3 of the spec — id, sender, receiver, status. -/
structure FriendRequest where
  id : Nat
  from_user_id : Nat
  to_user_id : Nat
  status : ReqStatus
deriving DecidableEq, Repr

/-- Modelled from the spec: the User record of the missing backend
(server.py), restricted to the fields the friend engine touches —
`id` and the `friend_ids` set, kept as a list. -/
structure User where
  id : Nat
  friend_ids : List Nat
deriving DecidableEq, Repr

/-- Modelled from the spec: the Spot record of the missing backend
(server.py), restricted to the fields the visibility filter reads —
`id` and the nullable `owner_id`. -/
structure Spot where
  id : Nat
  owner_id : Option Nat
deriving DecidableEq, Repr

/-- Modelled from the spec: the backend store of users and friend
requests the friend engine operates on. -/
structure Store where
  users : List User
  requests : List FriendRequest
deriving DecidableEq, Repr

/-- Failures of `accept_request` per §4.1 of the spec. -/
inductive FriendErr where
  | NotFound
  | Forbidden
  | InvalidState
deriving DecidableEq, Repr

/-- Add `fid` to the friend list of the user record whose id is `uid`,
leaving every other record unchanged. -/
def addFriend (uid fid : Nat) (u : User) : User :=
  if u.id = uid then { u with friend_ids := fid :: u.friend_ids } else u

/-- Modelled from the spec: `accept_request(request_id, acting_user)` of
the missing backend (server.py), §4.1 — `NotFound` if no such request,
`Forbidden` if the acting user is not the receiver, `InvalidState` if
the request is not pending; on success each user is added to the
other's `friend_ids` and the request record is deleted. -/
def accept_request (request_id acting_user : Nat) (s : Store) : Except FriendErr Store :=
  match s.requests.find? (fun r => r.id == request_id) with
  | none => Except.error FriendErr.NotFound
  | some r =>
      if acting_user ≠ r.to_user_id then Except.error FriendErr.Forbidden
      else if r.status ≠ ReqStatus.pending then Except.error FriendErr.InvalidState
      else Except.ok
        { users := s.users.map (fun u =>
            addFriend r.from_user_id r.to_user_id (addFriend r.to_user_id r.from_user_id u))
          requests := s.requests.filter (fun q => q.id ≠ request_id) }

/-- The friend list recorded in a store for a user id (empty if the
user record is absent). -/
def friendsOf (s : Store) (uid : Nat) : List Nat :=
  match s.users.find? (fun u => u.id == uid) with
  | none => []
  | some u => u.friend_ids

/-- Whether a request connects the unordered pair `{a, b}`, in either
direction. -/
def betweenPair (q : FriendRequest) (a b : Nat) : Prop :=
  (q.from_user_id = a ∧ q.to_user_id = b) ∨ (q.from_user_id = b ∧ q.to_user_id = a)

instance (q : FriendRequest) (a b : Nat) : Decidable (betweenPair q a b) := by
  unfold betweenPair
  infer_instance

/-! ## Rating aggregator (modelled from the spec) -/

/-- Modelled from the spec: the Rating record of the missing backend
(server.py), §3 — one row per (spot_id, user_id) with a value. -/
structure Rating where
  spot_id : Nat
  user_id : Nat
  value : Nat
deriving DecidableEq, Repr

/-- Modelled from the spec: the rating aggregate carried by a Spot
record in the missing backend (server.py) — `rating_sum` and
`rating_count`; the sum is an integer so that the replacement update
`rating_sum += value - old_value` is literal. -/
structure RSpot where
  id : Nat
  rating_sum : Int
  rating_count : Nat
deriving DecidableEq, Repr

/-- Modelled from the spec: the backend store the rating aggregator
operates on — spot records and rating rows. -/
structure RStore where
  spots : List RSpot
  ratings : List Rating
deriving DecidableEq, Repr

/-- Failures of `submit_rating` per §4.3 of the spec. -/
inductive RateErr where
  | NotFound
  | InvalidValue
  | Unauthorized
deriving DecidableEq, Repr

/-- Modelled from the spec: the value check of the missing backend
(server.py), §4.3 — a rating is valid iff it lies in {1,2,3,4,5}. -/
def ratingValid (v : Nat) : Bool :=
  1 ≤ v && v ≤ 5

/-- Whether a rating row is the one of the (spot, user) pair. -/
def ratingKeyP (sid uid : Nat) (r : Rating) : Bool :=
  r.spot_id == sid && r.user_id == uid

/-- The derived average of an aggregate: `rating_sum / rating_count`
if the count is positive, else 0 (§3 of the spec). -/
def avgOf (sum : Int) (count : Nat) : Rat :=
  if count = 0 then 0 else (sum : Rat) / (count : Rat)

/-- Modelled from the spec: `submit_rating(spot_id, user_id, value)` of
the missing backend (server.py), §4.3 — `NotFound` if the spot is
absent, `InvalidValue` if the value is outside {1..5}, `Unauthorized`
if the caller is not authenticated; a prior Rating of the same
(spot_id, user_id) is replaced with `rating_sum += value - old_value`
and an unchanged count, otherwise a new Rating is inserted with
`rating_sum += value; rating_count += 1`; the recomputed average is
returned. -/
def submit_rating (spot_id user_id value : Nat) (authed : Bool) (s : RStore) :
    Except RateErr (RStore × Rat) :=
  match s.spots.find? (fun sp => sp.id == spot_id) with
  | none => Except.error RateErr.NotFound
  | some sp =>
      if ¬ratingValid value then Except.error RateErr.InvalidValue
      else if ¬authed then Except.error RateErr.Unauthorized
      else
        match s.ratings.find? (ratingKeyP spot_id user_id) with
        | some old =>
            let newSum : Int := sp.rating_sum + (value : Int) - (old.value : Int)
            Except.ok
              ({ spots := s.spots.map (fun q =>
                   if q.id == spot_id then
                     { q with rating_sum := q.rating_sum + (value : Int) - (old.value : Int) }
                   else q)
                 ratings := s.ratings.map (fun r =>
                   if ratingKeyP spot_id user_id r then { r with value := value } else r) },
               avgOf newSum sp.rating_count)
        | none =>
            let newSum : Int := sp.rating_sum + (value : Int)
            Except.ok
              ({ spots := s.spots.map (fun q =>
                   if q.id == spot_id then
                     { q with
                       rating_sum := q.rating_sum + (value : Int)
                       rating_count := q.rating_count + 1 }
                   else q)
                 ratings := Rating.mk spot_id user_id value :: s.ratings },
               avgOf newSum (sp.rating_count + 1))

/-- The rating aggregate recorded in a store for a spot id, as a
(sum, count) pair (zeros if the spot record is absent). -/
def aggOf (s : RStore) (sid : Nat) : Int × Nat :=
  match s.spots.find? (fun sp => sp.id == sid) with
  | none => (0, 0)
  | some sp => (sp.rating_sum, sp.rating_count)

/-- At most one rating row per (spot, user) pair in the store. -/
def uniqueRatings (s : RStore) : Prop :=
  ∀ sid uid, s.ratings.countP (ratingKeyP sid uid) ≤ 1

/-! ## Visibility filter (modelled from the spec) -/

/-- Failure of the spot listing per §4.2 of the spec. -/
inductive VisErr where
  | Unauthorized
deriving DecidableEq, Repr

/-- Modelled from the spec: the visibility filter of the missing
backend (server.py), §4.2 — `global` returns every spot with or
without authentication; `own` and `friends` fail with `Unauthorized`
without a requesting user; `own` returns the spots owned by the
requester; `friends` returns the spots whose owner is one of the
requester's `friend_ids`. -/
def get_spots (mode : MapFilter) (requester : Option User) (spots : List Spot) :
    Except VisErr (List Spot) :=
  match mode with
  | MapFilter.global => Except.ok spots
  | MapFilter.own =>
      match requester with
      | none => Except.error VisErr.Unauthorized
      | some u => Except.ok (spots.filter (fun sp => sp.owner_id == some u.id))
  | MapFilter.friends =>
      match requester with
      | none => Except.error VisErr.Unauthorized
      | some u => Except.ok (spots.filter (fun sp =>
          match sp.owner_id with
          | none => false
          | some o => o ∈ u.friend_ids))

/-! ## Helper lemmas -/

/-- `find?` over a map whose function leaves the searched key intact. -/
theorem find?_map_keyed {α β : Type} (f : α → β) (p : β → Bool) (q : α → Bool)
    (hpq : ∀ a, p (f a) = q a) (l : List α) :
    (l.map f).find? p = (l.find? q).map f := by
  induction l with
  | nil => rfl
  | cons a l ih =>
      by_cases h : q a = true
      · rw [List.map_cons, List.find?_cons_of_pos, List.find?_cons_of_pos]
        · rfl
        · exact h
        · rw [hpq a]; exact h
      · rw [List.map_cons, List.find?_cons_of_neg, List.find?_cons_of_neg, ih]
        · simpa using h
        · rw [hpq a]; simpa using h

/-- A record update keyed on the id leaves every id unchanged. -/
theorem addFriend_id (a b : Nat) (u : User) : (addFriend a b u).id = u.id := by
  unfold addFriend
  split <;> rfl

/-- `addFriend` never removes a member from a friend list. -/
theorem addFriend_mem (a b x : Nat) (u : User) (hx : x ∈ u.friend_ids) :
    x ∈ (addFriend a b u).friend_ids := by
  unfold addFriend
  split
  · exact List.mem_cons_of_mem _ hx
  · exact hx

/-- `addFriend` puts `b` into the friend list of the record it keys. -/
theorem addFriend_adds (a b : Nat) (u : User) (hu : u.id = a) :
    b ∈ (addFriend a b u).friend_ids := by
  unfold addFriend
  rw [if_pos hu]
  exact List.mem_cons_self _ _

/-! ## Claim theorems -/

/-- C3: a query of length 0 or 1 makes `searchUsers` issue no HTTP
request and set the search results to the empty list; a query of
length at least 2 makes it request `GET /users/search?q=` plus the
query, and on success the response becomes the results. -/
theorem searchUsers_min_length_contract (q : String) (resp : Except Unit (List Nat)) :
    (q.length < 2 →
      searchUsers q resp = { request := none, newResults := some [] })
    ∧ (2 ≤ q.length →
      (searchUsers q resp).request = some (Req.getSearch q)
      ∧ ∀ d, resp = Except.ok d → (searchUsers q resp).newResults = some d) := by
  constructor
  · intro h
    simp [searchUsers, h]
  · intro h
    have h2 : ¬ q.length < 2 := by omega
    refine ⟨by simp [searchUsers, h2], ?_⟩
    intro d hd
    simp [searchUsers, h2, hd]

/-- Witness for C3 at the queries `a` and `al`. -/
theorem searchUsers_min_length_contract_witness :
    (searchUsers ("a") (Except.ok [7]) = { request := none, newResults := some [] })
    ∧ ((searchUsers ("al") (Except.ok [7])).request = some (Req.getSearch ("al"))
      ∧ (searchUsers ("al") (Except.ok [7])).newResults = some [7]) := by
  refine ⟨?_, ?_, ?_⟩
  · exact (searchUsers_min_length_contract ("a") (Except.ok [7])).1 (by decide)
  · exact ((searchUsers_min_length_contract ("al") (Except.ok [7])).2 (by decide)).1
  · exact ((searchUsers_min_length_contract ("al") (Except.ok [7])).2 (by decide)).2 [7] rfl

/-- C4: while no user is logged in, `handleAddSpotClick` and
`handleRateSpot` issue no HTTP request at all; each opens the auth
modal and returns, so the unauthenticated branch never reaches a POST
to /spots or /spots/{id}/rate. -/
theorem unauth_actions_send_no_request (s : ClientState) (h : s.user = none)
    (spotId rating : Nat) :
    handleAddSpotClick s = ({ s with showAuthModal := true }, [])
    ∧ handleRateSpot s spotId rating = ({ s with showAuthModal := true }, []) := by
  constructor
  · simp [handleAddSpotClick, h]
  · simp [handleRateSpot, h]

/-- Witness for C4 at the freshly mounted state with no stored token. -/
theorem unauth_actions_send_no_request_witness :
    (initState none).user = none
    ∧ (handleAddSpotClick (initState none)
        = ({ initState none with showAuthModal := true }, [])
      ∧ handleRateSpot (initState none) 5 3
        = ({ initState none with showAuthModal := true }, [])) :=
  ⟨rfl, unauth_actions_send_no_request (initState none) rfl 5 3⟩

/-- C7: a successful login or registration sets the shared axios
default Authorization header to `Bearer ` plus the received access
token and stores the token in localStorage (and sets the token and
user states); `handleLogout` deletes the header and the stored token
and clears the whole auth triple. -/
theorem auth_header_state_contract (s : ClientState) (t : String) (uid : Nat) :
    ((handleLoginSuccess s t uid).localToken = some t
      ∧ (handleLoginSuccess s t uid).token = some t
      ∧ (handleLoginSuccess s t uid).user = some uid
      ∧ (handleLoginSuccess s t uid).authHeader = some ("Bearer " ++ t))
    ∧ ((handleRegisterSuccess s t uid).localToken = some t
      ∧ (handleRegisterSuccess s t uid).token = some t
      ∧ (handleRegisterSuccess s t uid).user = some uid
      ∧ (handleRegisterSuccess s t uid).authHeader = some ("Bearer " ++ t))
    ∧ ((handleLogout s).localToken = none
      ∧ (handleLogout s).token = none
      ∧ (handleLogout s).user = none
      ∧ (handleLogout s).authHeader = none) :=
  ⟨⟨rfl, rfl, rfl, rfl⟩, ⟨rfl, rfl, rfl, rfl⟩, ⟨rfl, rfl, rfl, rfl⟩⟩

/-- C9: any failure of the `fetchUserProfile` request removes the token
from localStorage, sets both the token and user states to null and
deletes the shared Authorization header. -/
theorem profile_fetch_failure_logs_out (s : ClientState) (e : Unit) :
    (fetchUserProfileResult s (Except.error e)).localToken = none
    ∧ (fetchUserProfileResult s (Except.error e)).token = none
    ∧ (fetchUserProfileResult s (Except.error e)).user = none
    ∧ (fetchUserProfileResult s (Except.error e)).authHeader = none :=
  ⟨rfl, rfl, rfl, rfl⟩

/-- C10: when the `GET /spots` request of `loadSpots` fails the spots
state becomes the empty list, discarding whatever was loaded before;
on success it becomes exactly the response data. -/
theorem loadSpots_error_clears_spots (prev d : List Nat) (e : Unit) :
    loadSpotsResult (Except.error e) prev = []
    ∧ loadSpotsResult (Except.ok d) prev = d :=
  ⟨rfl, rfl⟩

/-- C8, counterexample: the invariant "whenever `user` is null,
`mapFilter` is `global`" fails on a reachable trace — a user logs in,
selects the `own` filter, and the `fetchUserProfile` call fired by the
token change then fails: the failure path (App.js lines 111-117) sets
`user` to null but leaves `mapFilter` untouched, so the client is
unauthenticated with the `own` filter selected. -/
theorem unauth_global_filter_counterexample :
    (runEvents (initState none)
        [Event.loginSuccess ("t") 1, Event.filterClick MapFilter.own,
          Event.profileFetchResult (Except.error ())]).user = none
    ∧ (runEvents (initState none)
        [Event.loginSuccess ("t") 1, Event.filterClick MapFilter.own,
          Event.profileFetchResult (Except.error ())]).mapFilter = MapFilter.own := by
  constructor <;> rfl

/-- One client step preserves "user null implies filter global" as long
as it is not a failed profile fetch. -/
theorem clientStep_preserves_global_inv (s : ClientState) (e : Event)
    (he : isProfileFetchFail e = false)
    (ih : s.user = none → s.mapFilter = MapFilter.global) :
    (clientStep s e).user = none → (clientStep s e).mapFilter = MapFilter.global := by
  cases e with
  | loginSuccess t uid =>
      intro h
      simp [clientStep, handleLoginSuccess] at h
  | registerSuccess t uid =>
      intro h
      simp [clientStep, handleRegisterSuccess] at h
  | filterClick f =>
      intro h
      by_cases hs : s.user.isSome
      · simp only [clientStep, if_pos hs] at h
        rw [h] at hs
        simp at hs
      · simp only [clientStep, if_neg hs] at h ⊢
        exact ih h
  | logoutClick =>
      intro h
      by_cases hs : s.user.isSome
      · simp only [clientStep, if_pos hs]
        rfl
      · simp only [clientStep, if_neg hs] at h ⊢
        exact ih h
  | profileFetchResult r =>
      intro h
      cases r with
      | ok uid =>
          by_cases hf : s.fetchInFlight
          · simp [clientStep, if_pos hf, fetchUserProfileResult] at h
          · simp only [clientStep, if_neg hf] at h ⊢
            exact ih h
      | error e => simp [isProfileFetchFail] at he
  | addSpotClick =>
      intro h
      cases hu : s.user with
      | none =>
          simp only [clientStep, handleAddSpotClick, hu] at h ⊢
          exact ih hu
      | some uid => simp [clientStep, handleAddSpotClick, hu] at h
  | rateSpotClick sid v =>
      intro h
      cases hu : s.user with
      | none =>
          simp only [clientStep, handleRateSpot, hu] at h ⊢
          exact ih hu
      | some uid => simp [clientStep, handleRateSpot, hu] at h

/-- Folding profile-fetch-failure-free events preserves the
invariant. -/
theorem foldl_preserves_global_inv (es : List Event) (s : ClientState)
    (hno : ∀ e ∈ es, isProfileFetchFail e = false)
    (hs : s.user = none → s.mapFilter = MapFilter.global) :
    (es.foldl clientStep s).user = none →
      (es.foldl clientStep s).mapFilter = MapFilter.global := by
  induction es generalizing s with
  | nil => exact hs
  | cons e rest ih =>
      simp only [List.foldl_cons]
      exact ih (clientStep s e)
        (fun x hx => hno x (List.mem_cons_of_mem e hx))
        (clientStep_preserves_global_inv s e (hno e (List.mem_cons_self e rest)) hs)

/-- C8, amended: `mapFilter` is initialised to `global`, the filter
buttons act only while a user is logged in, and `handleLogout` resets
the filter to `global`; hence in every execution in which no
`fetchUserProfile` request fails, an unauthenticated client always has
`mapFilter` equal to `global` (the failure path of `fetchUserProfile`
logs the client out without resetting the filter, which is the sole
violation — see the counterexample). -/
theorem unauth_global_filter_amended (t0 : Option String) (es : List Event)
    (hno : ∀ e ∈ es, isProfileFetchFail e = false)
    (hu : (runEvents (initState t0) es).user = none) :
    (runEvents (initState t0) es).mapFilter = MapFilter.global :=
  foldl_preserves_global_inv es (initState t0) hno (fun _ => rfl) hu

/-- Witness for the amended C8 on a login-then-logout trace. -/
theorem unauth_global_filter_amended_witness :
    (runEvents (initState none)
        [Event.loginSuccess ("t") 1, Event.filterClick MapFilter.own,
          Event.logoutClick]).mapFilter = MapFilter.global :=
  unauth_global_filter_amended none
    [Event.loginSuccess ("t") 1, Event.filterClick MapFilter.own, Event.logoutClick]
    (by decide) (by rfl)

/-- C5: both star widgets enumerate exactly the values 1..5, every
enumerated value passes the server-side value check, the rating
aggregator can never answer `InvalidValue` for an enumerated value,
and an authenticated client posts the chosen star value unmodified. -/
theorem client_star_values_valid :
    starRatingValues = appStarValues
    ∧ appStarValues = [1, 2, 3, 4, 5]
    ∧ (∀ v ∈ appStarValues, ratingValid v = true)
    ∧ (∀ v ∈ appStarValues, ∀ sid uid authed s,
        submit_rating sid uid v authed s ≠ Except.error RateErr.InvalidValue)
    ∧ (∀ s : ClientState, ∀ sid v, s.user.isSome = true →
        handleRateSpot s sid v = (s, [Req.postRate sid v])) := by
  have hvalid : ∀ v ∈ appStarValues, ratingValid v = true := by decide
  refine ⟨by decide, rfl, hvalid, ?_, ?_⟩
  · intro v hv sid uid authed s
    have hv2 : ratingValid v = true := hvalid v hv
    unfold submit_rating
    cases hsp : s.spots.find? (fun sp => sp.id == sid) with
    | none => simp
    | some sp =>
        simp only [hv2, not_true_eq_false, if_false]
        cases authed with
        | false => simp
        | true =>
            simp only [not_true_eq_false, if_false]
            cases s.ratings.find? (ratingKeyP sid uid) <;> simp
  · intro s sid v h
    cases hu : s.user with
    | none => rw [hu] at h; simp at h
    | some uid => simp [handleRateSpot, hu]

/-- Witness for C5 at the value 3 on a logged-in client. -/
theorem client_star_values_valid_witness :
    (3 ∈ appStarValues)
    ∧ ratingValid 3 = true
    ∧ submit_rating 1 2 3 true (RStore.mk [] []) ≠ Except.error RateErr.InvalidValue
    ∧ handleRateSpot (handleLoginSuccess (initState none) ("t") 1) 5 3
        = (handleLoginSuccess (initState none) ("t") 1, [Req.postRate 5 3]) := by
  have h := client_star_values_valid
  exact ⟨by decide, h.2.2.1 3 (by decide),
    h.2.2.2.1 3 (by decide) 1 2 true (RStore.mk [] []),
    h.2.2.2.2 (handleLoginSuccess (initState none) ("t") 1) 5 3 rfl⟩

/-- C6: `global` returns every spot with or without authentication
(anonymous owners included); `own` for user A returns exactly the
spots with `owner_id = A.id`; `friends` for A returns exactly the
spots whose owner is in `A.friend_ids`, which excludes A's own spots
since `friend_ids` never contains the own id; and the client footer
labels the friends view `Your + friends' spots`. -/
theorem visibility_filter_semantics (u : User) (spots : List Spot)
    (hself : u.id ∉ u.friend_ids) :
    (∀ req, get_spots MapFilter.global req spots = Except.ok spots)
    ∧ (∃ l, get_spots MapFilter.own (some u) spots = Except.ok l
        ∧ ∀ sp, sp ∈ l ↔ sp ∈ spots ∧ sp.owner_id = some u.id)
    ∧ (∃ l, get_spots MapFilter.friends (some u) spots = Except.ok l
        ∧ (∀ sp, sp ∈ l ↔ sp ∈ spots ∧ ∃ o, sp.owner_id = some o ∧ o ∈ u.friend_ids)
        ∧ (∀ sp ∈ l, sp.owner_id ≠ some u.id))
    ∧ footerLabel MapFilter.friends
        = "Your + friends" ++ (Char.ofNat 39).toString ++ " spots" := by
  refine ⟨fun req => rfl, ⟨_, rfl, ?_⟩, ⟨_, rfl, ?_, ?_⟩, rfl⟩
  · intro sp
    simp [List.mem_filter]
  · intro sp
    rw [List.mem_filter]
    constructor
    · rintro ⟨hmem, hcond⟩
      refine ⟨hmem, ?_⟩
      cases ho : sp.owner_id with
      | none => rw [ho] at hcond; simp at hcond
      | some o =>
          rw [ho] at hcond
          simp only [decide_eq_true_eq] at hcond
          exact ⟨o, rfl, hcond⟩
    · rintro ⟨hmem, o, ho, hfriend⟩
      refine ⟨hmem, ?_⟩
      rw [ho]
      simpa using hfriend
  · intro sp hsp
    rw [List.mem_filter] at hsp
    obtain ⟨-, hcond⟩ := hsp
    intro ho
    rw [ho] at hcond
    simp only [decide_eq_true_eq] at hcond
    exact hself hcond

/-- Witness for C6 at a user who is friends with user 2 and a
three-spot store owned by users 1, 2 and nobody. -/
theorem visibility_filter_semantics_witness :
    ((1 : Nat) ∉ [2]
      ∧ get_spots MapFilter.global none
          [Spot.mk 10 (some 1), Spot.mk 11 (some 2), Spot.mk 12 none]
        = Except.ok [Spot.mk 10 (some 1), Spot.mk 11 (some 2), Spot.mk 12 none])
    ∧ get_spots MapFilter.own (some (User.mk 1 [2]))
          [Spot.mk 10 (some 1), Spot.mk 11 (some 2), Spot.mk 12 none]
        = Except.ok [Spot.mk 10 (some 1)]
    ∧ get_spots MapFilter.friends (some (User.mk 1 [2]))
          [Spot.mk 10 (some 1), Spot.mk 11 (some 2), Spot.mk 12 none]
        = Except.ok [Spot.mk 11 (some 2)] := by
  have h := visibility_filter_semantics (User.mk 1 [2])
    [Spot.mk 10 (some 1), Spot.mk 11 (some 2), Spot.mk 12 none] (by decide)
  exact ⟨⟨by decide, h.1 none⟩, rfl, rfl⟩

/-- C1: whenever `accept_request` succeeds on a request from A to B,
afterwards B is in A's `friend_ids` if and only if A is in B's
`friend_ids`, no request between A and B remains pending (given the
invariant that the accepted request was the only pending one of the
pair), and the accepted request record itself has been deleted. -/
theorem accept_request_symmetry
    (rid acting : Nat) (s s' : Store) (r : FriendRequest)
    (hfind : s.requests.find? (fun q => q.id == rid) = some r)
    (hA : (s.users.find? (fun u => u.id == r.from_user_id)).isSome = true)
    (hB : (s.users.find? (fun u => u.id == r.to_user_id)).isSome = true)
    (huniq : ∀ q ∈ s.requests, q.status = ReqStatus.pending →
        betweenPair q r.from_user_id r.to_user_id → q.id = rid)
    (hok : accept_request rid acting s = Except.ok s') :
    (r.to_user_id ∈ friendsOf s' r.from_user_id
      ↔ r.from_user_id ∈ friendsOf s' r.to_user_id)
    ∧ (∀ q ∈ s'.requests, q.status = ReqStatus.pending →
        ¬ betweenPair q r.from_user_id r.to_user_id)
    ∧ (∀ q ∈ s'.requests, q.id ≠ rid) := by
  unfold accept_request at hok
  rw [hfind] at hok
  dsimp only at hok
  by_cases hact : acting ≠ r.to_user_id
  · rw [if_pos hact] at hok
    exact absurd hok (by simp)
  rw [if_neg hact] at hok
  by_cases hst : r.status ≠ ReqStatus.pending
  · rw [if_pos hst] at hok
    exact absurd hok (by simp)
  rw [if_neg hst] at hok
  simp only [Except.ok.injEq] at hok
  subst hok
  obtain ⟨uA, huA⟩ := Option.isSome_iff_exists.mp hA
  obtain ⟨uB, huB⟩ := Option.isSome_iff_exists.mp hB
  have huAid : uA.id = r.from_user_id := by
    have := List.find?_some huA
    simpa using this
  have huBid : uB.id = r.to_user_id := by
    have := List.find?_some huB
    simpa using this
  have hpres : ∀ u : User,
      ((addFriend r.from_user_id r.to_user_id (addFriend r.to_user_id r.from_user_id u)).id
        == r.from_user_id) = (u.id == r.from_user_id) := by
    intro u
    rw [addFriend_id, addFriend_id]
  have hpresB : ∀ u : User,
      ((addFriend r.from_user_id r.to_user_id (addFriend r.to_user_id r.from_user_id u)).id
        == r.to_user_id) = (u.id == r.to_user_id) := by
    intro u
    rw [addFriend_id, addFriend_id]
  refine ⟨?_, ?_, ?_⟩
  · have hfa : friendsOf
        { users := s.users.map (fun u =>
            addFriend r.from_user_id r.to_user_id (addFriend r.to_user_id r.from_user_id u))
          requests := s.requests.filter (fun q => q.id ≠ rid) } r.from_user_id
        = (addFriend r.from_user_id r.to_user_id
            (addFriend r.to_user_id r.from_user_id uA)).friend_ids := by
      unfold friendsOf
      rw [find?_map_keyed _ _ _ hpres, huA]
      rfl
    have hfb : friendsOf
        { users := s.users.map (fun u =>
            addFriend r.from_user_id r.to_user_id (addFriend r.to_user_id r.from_user_id u))
          requests := s.requests.filter (fun q => q.id ≠ rid) } r.to_user_id
        = (addFriend r.from_user_id r.to_user_id
            (addFriend r.to_user_id r.from_user_id uB)).friend_ids := by
      unfold friendsOf
      rw [find?_map_keyed _ _ _ hpresB, huB]
      rfl
    rw [hfa, hfb]
    have hmemA : r.to_user_id ∈ (addFriend r.from_user_id r.to_user_id
        (addFriend r.to_user_id r.from_user_id uA)).friend_ids := by
      apply addFriend_adds
      rw [addFriend_id]
      exact huAid
    have hmemB : r.from_user_id ∈ (addFriend r.from_user_id r.to_user_id
        (addFriend r.to_user_id r.from_user_id uB)).friend_ids := by
      apply addFriend_mem
      exact addFriend_adds _ _ uB huBid
    exact iff_of_true hmemA hmemB
  · intro q hq hpend hbet
    rw [List.mem_filter] at hq
    obtain ⟨hqmem, hqid⟩ := hq
    exact (of_decide_eq_true hqid) (huniq q hqmem hpend hbet)
  · intro q hq
    rw [List.mem_filter] at hq
    exact of_decide_eq_true hq.2

/-- Witness for C1: accepting the pending request from user 1 to
user 2 in a two-user store. -/
theorem accept_request_symmetry_witness :
    accept_request 10 2
        (Store.mk [User.mk 1 [], User.mk 2 []]
          [FriendRequest.mk 10 1 2 ReqStatus.pending])
      = Except.ok (Store.mk [User.mk 1 [2], User.mk 2 [1]] [])
    ∧ ((2 ∈ friendsOf (Store.mk [User.mk 1 [2], User.mk 2 [1]] []) 1
        ↔ 1 ∈ friendsOf (Store.mk [User.mk 1 [2], User.mk 2 [1]] []) 2)
      ∧ (∀ q ∈ (Store.mk [User.mk 1 [2], User.mk 2 [1]] [] : Store).requests,
          q.status = ReqStatus.pending → ¬ betweenPair q 1 2)
      ∧ (∀ q ∈ (Store.mk [User.mk 1 [2], User.mk 2 [1]] [] : Store).requests,
          q.id ≠ 10)) := by
  have hok : accept_request 10 2
      (Store.mk [User.mk 1 [], User.mk 2 []]
        [FriendRequest.mk 10 1 2 ReqStatus.pending])
      = Except.ok (Store.mk [User.mk 1 [2], User.mk 2 [1]] []) := rfl
  refine ⟨hok, ?_⟩
  exact accept_request_symmetry 10 2
    (Store.mk [User.mk 1 [], User.mk 2 []] [FriendRequest.mk 10 1 2 ReqStatus.pending])
    (Store.mk [User.mk 1 [2], User.mk 2 [1]] [])
    (FriendRequest.mk 10 1 2 ReqStatus.pending)
    (by decide) (by decide) (by decide) (by decide) hok

/-- C2: when `submit_rating` succeeds on a spot, a user with no prior
rating adds the value to `rating_sum` and increments `rating_count`;
a user with a prior rating changes `rating_sum` by the difference and
leaves `rating_count` unchanged; the at-most-one-rating-per-pair
invariant is preserved; and the returned average is
`rating_sum / rating_count` of the updated aggregate. -/
theorem submit_rating_aggregate_update
    (spot_id user_id value : Nat) (authed : Bool) (s s' : RStore) (avg : Rat)
    (sp : RSpot)
    (hsp : s.spots.find? (fun q => q.id == spot_id) = some sp)
    (hok : submit_rating spot_id user_id value authed s = Except.ok (s', avg)) :
    (s.ratings.find? (ratingKeyP spot_id user_id) = none →
        aggOf s' spot_id = (sp.rating_sum + (value : Int), sp.rating_count + 1))
    ∧ (∀ old, s.ratings.find? (ratingKeyP spot_id user_id) = some old →
        aggOf s' spot_id = (sp.rating_sum + (value : Int) - (old.value : Int),
          sp.rating_count))
    ∧ (uniqueRatings s → uniqueRatings s')
    ∧ avg = avgOf (aggOf s' spot_id).1 (aggOf s' spot_id).2 := by
  have hspid : (sp.id == spot_id) = true := by
    have h := List.find?_some hsp
    simpa using h
  unfold submit_rating at hok
  rw [hsp] at hok
  dsimp only at hok
  by_cases hv : ratingValid value = true
  · rw [if_neg (by simpa using hv)] at hok
    cases authed with
    | false =>
        rw [if_pos (by simp)] at hok
        exact absurd hok (by simp)
    | true =>
        rw [if_neg (by simp)] at hok
        cases hprior : s.ratings.find? (ratingKeyP spot_id user_id) with
        | some old =>
            rw [hprior] at hok
            simp only [Except.ok.injEq, Prod.mk.injEq] at hok
            obtain ⟨hs', havg⟩ := hok
            subst hs'
            subst havg
            have hkeep : ∀ q : RSpot,
                (((if q.id == spot_id then
                    { q with rating_sum := q.rating_sum + (value : Int) - (old.value : Int) }
                  else q) : RSpot).id == spot_id) = (q.id == spot_id) := by
              intro q
              by_cases hq : (q.id == spot_id) = true <;> simp [hq]
            have hagg : aggOf
                { spots := s.spots.map (fun q =>
                    if q.id == spot_id then
                      { q with rating_sum := q.rating_sum + (value : Int) - (old.value : Int) }
                    else q)
                  ratings := s.ratings.map (fun r =>
                    if ratingKeyP spot_id user_id r then { r with value := value } else r) }
                spot_id
                = (sp.rating_sum + (value : Int) - (old.value : Int), sp.rating_count) := by
              unfold aggOf
              rw [find?_map_keyed _ _ _ hkeep, hsp]
              have hspeq : sp.id = spot_id := by simpa using hspid
              simp [hspeq]
            refine ⟨?_, ?_, ?_, ?_⟩
            · intro hnone
              exact absurd hnone (by simp)
            · intro old2 hold2
              simp only [Option.some.injEq] at hold2
              subst hold2
              exact hagg
            · intro hu sid uid
              dsimp only [uniqueRatings] at hu ⊢
              rw [List.countP_map]
              calc s.ratings.countP
                    ((ratingKeyP sid uid) ∘ (fun r =>
                      if ratingKeyP spot_id user_id r then { r with value := value } else r))
                  = s.ratings.countP (ratingKeyP sid uid) := by
                    apply List.countP_congr
                    intro r _
                    by_cases hr : ratingKeyP spot_id user_id r = true
                    · simp only [Function.comp_apply, if_pos hr]
                      constructor <;> (intro hx; simpa [ratingKeyP] using hx)
                    · simp only [Function.comp_apply, if_neg hr]
                _ ≤ 1 := hu sid uid
            · rw [hagg]
        | none =>
            rw [hprior] at hok
            simp only [Except.ok.injEq, Prod.mk.injEq] at hok
            obtain ⟨hs', havg⟩ := hok
            subst hs'
            subst havg
            have hkeep : ∀ q : RSpot,
                (((if q.id == spot_id then
                    { q with rating_sum := q.rating_sum + (value : Int)
                             rating_count := q.rating_count + 1 }
                  else q) : RSpot).id == spot_id) = (q.id == spot_id) := by
              intro q
              by_cases hq : (q.id == spot_id) = true <;> simp [hq]
            have hagg : aggOf
                { spots := s.spots.map (fun q =>
                    if q.id == spot_id then
                      { q with rating_sum := q.rating_sum + (value : Int)
                               rating_count := q.rating_count + 1 }
                    else q)
                  ratings := Rating.mk spot_id user_id value :: s.ratings }
                spot_id
                = (sp.rating_sum + (value : Int), sp.rating_count + 1) := by
              unfold aggOf
              rw [find?_map_keyed _ _ _ hkeep, hsp]
              have hspeq : sp.id = spot_id := by simpa using hspid
              simp [hspeq]
            refine ⟨fun _ => hagg, ?_, ?_, ?_⟩
            · intro old2 hold2
              exact absurd hold2 (by simp)
            · intro hu sid uid
              dsimp only [uniqueRatings] at hu ⊢
              rw [List.countP_cons]
              by_cases hnew : ratingKeyP sid uid (Rating.mk spot_id user_id value) = true
              · have hsid : spot_id = sid ∧ user_id = uid := by
                  simpa [ratingKeyP] using hnew
                obtain ⟨h1, h2⟩ := hsid
                subst h1
                subst h2
                have hzero : s.ratings.countP (ratingKeyP spot_id user_id) = 0 := by
                  rw [List.countP_eq_zero]
                  intro r hr
                  exact List.find?_eq_none.mp hprior r hr
                rw [hzero, hnew]
                simp
              · rw [if_neg hnew]
                simpa using hu sid uid
            · rw [hagg]
  · rw [if_pos (by simpa using hv)] at hok
    exact absurd hok (by simp)

/-- Witness for C2: user 2 rates spot 1 with value 4 (fresh rating),
then re-rates with value 2 (replacement). -/
theorem submit_rating_aggregate_update_witness :
    (submit_rating 1 2 4 true (RStore.mk [RSpot.mk 1 0 0] [])
        = Except.ok (RStore.mk [RSpot.mk 1 4 1] [Rating.mk 1 2 4], avgOf 4 1)
      ∧ aggOf (RStore.mk [RSpot.mk 1 4 1] [Rating.mk 1 2 4]) 1 = (4, 1))
    ∧ (submit_rating 1 2 2 true (RStore.mk [RSpot.mk 1 4 1] [Rating.mk 1 2 4])
        = Except.ok (RStore.mk [RSpot.mk 1 2 1] [Rating.mk 1 2 2], avgOf 2 1)
      ∧ aggOf (RStore.mk [RSpot.mk 1 2 1] [Rating.mk 1 2 2]) 1 = (2, 1)) := by
  have h1 := submit_rating_aggregate_update 1 2 4 true
    (RStore.mk [RSpot.mk 1 0 0] [])
    (RStore.mk [RSpot.mk 1 4 1] [Rating.mk 1 2 4]) (avgOf 4 1)
    (RSpot.mk 1 0 0) (by rfl) (by rfl)
  have h2 := submit_rating_aggregate_update 1 2 2 true
    (RStore.mk [RSpot.mk 1 4 1] [Rating.mk 1 2 4])
    (RStore.mk [RSpot.mk 1 2 1] [Rating.mk 1 2 2]) (avgOf 2 1)
    (RSpot.mk 1 4 1) (by rfl) (by rfl)
  exact ⟨⟨by rfl, h1.1 (by rfl)⟩, by rfl, h2.2.1 (Rating.mk 1 2 4) (by rfl)⟩

end DropTheSpot
